import Mathlib

/-!
Shallow embedding of `src/datascience-ui/history-react/interactiveCell.tsx`
(two React components: `InteractiveCell` and `NativeEditor`) together with
theorems settling the behavioural claims about submitting editor input,
toolbar visibility, update gating, keyboard shortcuts, cell selection,
tab-stop navigation, input-history ownership and the scroll-visibility scan.
-/

namespace VSCodePython

/-- Modelled from the spec: `Identifiers.EditCellId`, the well-known sentinel
identity reserved for the perpetual input cell.  The constant lives in
`client/datascience/constants.ts`, which is not part of this excerpt; only
the fact that it is one fixed identity matters here. -/
def Identifiers.EditCellId : String := "3D3AB152-ADC1-4501-B813-4B83B49B0C10"

/-- Modelled from the spec: `Identifiers.EmptyFileName`, the empty-file
sentinel compared against `cell.file` in `renderNormalToolbar`.  Defined in
`client/datascience/constants.ts`, outside this excerpt; only that it is one
fixed non-empty string matters here. -/
def Identifiers.EmptyFileName : String := "2DB9B899-6519-4E1B-88B0-FA728A274115"

/-- Execution state of a cell, from `CellState` in
`client/datascience/types.ts` (referenced by the excerpt as
`CellState.init`, `CellState.executing`, `CellState.finished`,
`CellState.error`). -/
inductive CellState where
  | editing
  | init
  | executing
  | finished
  | error
deriving DecidableEq, Repr

/-- The `cell.data` payload as used by the excerpt: `cell_type`, `source`,
`execution_count` and the outputs collection (only its length is consulted
here, in `shouldRenderResults`). -/
structure CellData where
  cell_type : String
  source : String
  execution_count : Option Int
  outputsCount : Nat
deriving DecidableEq, Repr

/-- A notebook cell as consumed by the excerpt: identity, optional source
file, execution state and data payload. -/
structure ICell where
  id : String
  file : Option String
  state : CellState
  data : CellData
deriving DecidableEq, Repr

/-- The cell view-model (`ICellViewModel` from
`interactive-common/mainState`), restricted to the fields the excerpt
reads: the cell itself, the quick-edit flag and the UI flags. -/
structure ICellViewModel where
  cell : ICell
  useQuickEdit : Bool
  selected : Bool
  focused : Bool
  editable : Bool
  directInput : Bool
  hideOutput : Bool
  inputBlockOpen : Bool
  inputBlockShow : Bool
  inputBlockCollapseNeeded : Bool
  showLineNumbers : Bool
deriving DecidableEq, Repr

/-- Font descriptor (`IFont`). -/
structure IFont where
  size : Int
  family : String
deriving DecidableEq, Repr

/-- The data-science settings fields read by the excerpt
(`IDataScienceExtraSettings`). -/
structure DataScienceSettings where
  showCellInputCode : Bool
  themeMatplotlibPlots : Bool
  enableGather : Bool
deriving DecidableEq, Repr

/-- The full prop snapshot of `InteractiveCell`
(`IInteractiveCellBaseProps`), over which `shouldComponentUpdate` takes its
deep-equality decision. -/
structure InteractiveCellProps where
  role : Option String
  cellVM : ICellViewModel
  baseTheme : String
  codeTheme : String
  testMode : Bool
  autoFocus : Bool
  maxTextSize : Option Int
  showWatermark : Bool
  monacoTheme : Option String
  editExecutionCount : Option String
  editorMeasureClassName : Option String
  font : IFont
  settings : DataScienceSettings
deriving DecidableEq, Repr

/-- Structural deep equality over the prop snapshot, embedding the
`fast-deep-equal` library call on two `IInteractiveCellProps` values: for
this first-order record of scalars and nested records, deep equality is
exactly structural equality. -/
def fastDeepEqual (a b : InteractiveCellProps) : Bool :=
  decide (a = b)

/-- The `shouldComponentUpdate` body (line 75-77 of the excerpt):
`return !fastDeepEqual(this.props, nextProps)`. -/
def shouldComponentUpdate (props nextProps : InteractiveCellProps) : Bool :=
  !(fastDeepEqual props nextProps)

/-- Modelled from the spec: React's update-skip contract — the render body
runs on an update exactly when `shouldComponentUpdate` answers `true`.
React itself is outside this excerpt; this definition records the contract
the spec relies on. -/
def renderInvokedOnUpdate (props nextProps : InteractiveCellProps) : Bool :=
  shouldComponentUpdate props nextProps

/-- Visibility of the per-cell toolbar controls produced by
`renderNormalToolbar` (lines 160-185): gather, go-to-source, copy-to-source
and delete buttons.  An `ImageButton` is visible exactly when its `hidden`
attribute is `false`. -/
structure ToolbarVisibility where
  gatherVisible : Bool
  gotoVisible : Bool
  copyVisible : Bool
  deleteVisible : Bool
deriving DecidableEq, Repr

/-- The `hasNoSource` test of `renderNormalToolbar`:
`!cell || !cell.file || cell.file === Identifiers.EmptyFileName`.  The cell
always exists here (`this.getCell()` returns `this.props.cellVM.cell`), so
the first disjunct is vacuous; `!cell.file` is JavaScript truthiness and
holds for a missing field and for the empty string. -/
def hasNoSource (cell : ICell) : Bool :=
  match cell.file with
  | none => true
  | some f => decide (f = "") || decide (f = Identifiers.EmptyFileName)

/-- The toolbar rendered by `renderNormalToolbar`: gather is hidden unless
`settings.enableGather`, go-to-source is hidden when `hasNoSource`,
copy-to-source is hidden when `!hasNoSource`, delete is always shown. -/
def renderNormalToolbar (settings : DataScienceSettings) (cell : ICell) :
    ToolbarVisibility :=
  { gatherVisible := settings.enableGather
    gotoVisible := !(hasNoSource cell)
    copyVisible := hasNoSource cell
    deleteVisible := true }

/-- The editor information attached to a keyboard event coming from the
inner code editor (`IKeyboardEvent.editorInfo` from
`react-common/event`): current contents, the dirty flag and whether a
suggestion widget is open. -/
structure IEditorInfo where
  contents : String
  isDirty : Bool
  isSuggesting : Bool
deriving DecidableEq, Repr

/-- A keyboard event as the excerpt consumes it (`IKeyboardEvent`): key
code, modifier flags and optional editor info.  `editorInfo` is present
only for events raised by the inner editor. -/
structure IKeyboardEvent where
  code : String
  shiftKey : Bool
  ctrlKey : Bool
  metaKey : Bool
  altKey : Bool
  editorInfo : Option IEditorInfo
deriving DecidableEq, Repr

/-- Modelled from the spec: the `InputHistory` buffer
(`interactive-common/inputHistory`, outside this excerpt) — an ordered
sequence of submitted input strings, each tagged with whether the content
differed from a prior baseline at submit time. -/
structure InputHistory where
  entries : List (String × Bool)
deriving DecidableEq, Repr

/-- Modelled from the spec: `InputHistory.add` appends the submitted
content, tagged with the dirty flag, to the buffer. -/
def InputHistory.add (h : InputHistory) (code : String) (typed : Bool) :
    InputHistory :=
  { entries := h.entries ++ [(code, typed)] }

/-- The private state of one `InteractiveCell` component instance that the
claims consult: the optional `inputHistory` member. -/
structure InteractiveCellComponent where
  inputHistory : Option InputHistory
deriving DecidableEq, Repr

/-- The `InteractiveCell` constructor (lines 52-58): an `InputHistory` is
created exactly when the cell's identity is the reserved edit-cell
sentinel. -/
def InteractiveCell.construct (props : InteractiveCellProps) :
    InteractiveCellComponent :=
  { inputHistory :=
      if props.cellVM.cell.id = Identifiers.EditCellId then
        some { entries := [] }
      else none }

/-- The loop of `editCellSubmit` (lines 301-306): `endPos` walks backwards
from the end of the contents while the character is a newline, and the
result is the prefix `contents.slice(0, endPos + 1)` — i.e. the contents
with every trailing newline character removed. -/
def removeTrailingNewlineChars : List Char → List Char
  | [] => []
  | c :: rest =>
    let r := removeTrailingNewlineChars rest
    if r.isEmpty ∧ c = '\n' then [] else c :: r

/-- String version of the trailing-newline strip performed by
`editCellSubmit` on `e.editorInfo.contents`. -/
def removeTrailingNewlines (s : String) : String :=
  String.mk (removeTrailingNewlineChars s.data)

/-- The observable effects of one `editCellSubmit` call: whether the event
was stopped and defaulted, the arguments of the `InputHistory.add` call if
one was made, whether the editor was cleared, and the payload of the
`submitInput` dispatch if one was made. -/
structure SubmitResult where
  stoppedPropagation : Bool
  preventedDefault : Bool
  historyAdd : Option (String × Bool)
  editorCleared : Bool
  dispatched : Option (String × String)
deriving DecidableEq, Repr

/-- A `SubmitResult` in which nothing happened. -/
def SubmitResult.noop : SubmitResult :=
  { stoppedPropagation := false
    preventedDefault := false
    historyAdd := none
    editorCleared := false
    dispatched := none }

/-- The `editCellSubmit` handler (lines 295-319).  Everything is guarded by
`if (e.editorInfo && e.editorInfo.contents)`: the editor info must be
present and its contents a non-empty string (JavaScript truthiness).
Inside the guard the event is stopped and defaulted, trailing newlines are
removed, the trimmed content is added to the input history when the
component owns one, the editor is cleared and `submitInput(content,
cellId)` is dispatched. -/
def editCellSubmit (comp : InteractiveCellComponent) (cellId : String)
    (e : IKeyboardEvent) : InteractiveCellComponent × SubmitResult :=
  match e.editorInfo with
  | some info =>
    if info.contents = "" then (comp, SubmitResult.noop)
    else
      let content := removeTrailingNewlines info.contents
      ({ inputHistory :=
           match comp.inputHistory with
           | some h => some (h.add content info.isDirty)
           | none => none },
       { stoppedPropagation := true
         preventedDefault := true
         historyAdd :=
           match comp.inputHistory with
           | some _ => some (content, info.isDirty)
           | none => none
         editorCleared := true
         dispatched := some (content, cellId) })
  | none => (comp, SubmitResult.noop)

/-- A focusable DOM element as seen by `findTabStop`: an identity and its
tab index. -/
structure FocusableElement where
  name : String
  tabIndex : Int
deriving DecidableEq, Repr

/-- JavaScript array indexing `a[i]` for a possibly out-of-range or
negative index: `undefined` becomes `none`. -/
def jsIndex (l : List FocusableElement) (i : Int) : Option FocusableElement :=
  if 0 ≤ i then l[i.toNat]? else none

/-- JavaScript `Array.prototype.indexOf`: the index of the first occurrence
of the element, `-1` when absent. -/
def jsIndexOf (l : List FocusableElement) (x : FocusableElement) : Int :=
  match l with
  | [] => -1
  | a :: rest =>
    if a = x then 0
    else
      let r := jsIndexOf rest x
      if r = -1 then -1 else r + 1

/-- The `findTabStop` helper (lines 321-330): filter the document's
focusable elements to those with non-negative `tabIndex`, locate the given
element (JavaScript `indexOf`, `-1` when absent) and return the neighbour
in the requested direction, falling back to the first element
(`tabable[self + 1] || tabable[0]`). -/
def findTabStop (direction : Int) (allFocusable : List FocusableElement)
    (element : FocusableElement) : Option FocusableElement :=
  let tabable := allFocusable.filter (fun i => 0 ≤ i.tabIndex)
  let self : Int := jsIndexOf tabable element
  if 0 ≤ direction then
    (jsIndex tabable (self + 1)).or (jsIndex tabable 0)
  else
    (jsIndex tabable (self - 1)).or (jsIndex tabable 0)

/-- The `editCellEscape` handler (lines 332-340): when some element holds
focus, the event carries editor info and no suggestion widget is open,
focus moves to `findTabStop(1, focusedElement)` (when that yields an
element).  The result is the element that receives focus, `none` meaning
focus does not move. -/
def editCellEscape (allFocusable : List FocusableElement)
    (activeElement : Option FocusableElement) (e : IKeyboardEvent) :
    Option FocusableElement :=
  match activeElement, e.editorInfo with
  | some focused, some info =>
    if info.isSuggesting then none
    else findTabStop 1 allFocusable focused
  | _, _ => none

/-- The `onEditCellKeyDown` dispatcher (lines 287-293): `Escape` goes to
`editCellEscape`, `Enter` with shift held goes to `editCellSubmit`, any
other key does nothing.  The result bundles the possibly updated component
state, the submit effects and the focus movement. -/
def onEditCellKeyDown (comp : InteractiveCellComponent) (cellId : String)
    (allFocusable : List FocusableElement)
    (activeElement : Option FocusableElement) (e : IKeyboardEvent) :
    InteractiveCellComponent × SubmitResult × Option FocusableElement :=
  if e.code = "Escape" then
    (comp, SubmitResult.noop, editCellEscape allFocusable activeElement e)
  else if e.code = "Enter" ∧ e.shiftKey then
    let r := editCellSubmit comp cellId e
    (r.1, r.2, none)
  else (comp, SubmitResult.noop, none)

/-- C3: for all prop snapshots that are structurally deeply equal, a
re-render triggered with the second after the first is skipped:
`shouldComponentUpdate` returns `false` and, by the update-skip contract,
the render body is not re-invoked. -/
theorem interactiveCell_update_skip (P1 P2 : InteractiveCellProps)
    (h : P1 = P2) :
    shouldComponentUpdate P1 P2 = false ∧
      renderInvokedOnUpdate P1 P2 = false := by
  subst h
  refine ⟨?_, ?_⟩ <;>
    simp [shouldComponentUpdate, renderInvokedOnUpdate, fastDeepEqual]

/-- Witness for C3: a concrete prop snapshot compared against itself. -/
theorem interactiveCell_update_skip_witness :
    shouldComponentUpdate
        { role := none
          cellVM :=
            { cell :=
                { id := "a", file := none, state := CellState.init,
                  data :=
                    { cell_type := "code", source := "x = 1",
                      execution_count := none, outputsCount := 0 } }
              useQuickEdit := false, selected := false, focused := false,
              editable := true, directInput := true, hideOutput := false,
              inputBlockOpen := true, inputBlockShow := true,
              inputBlockCollapseNeeded := false, showLineNumbers := true }
          baseTheme := "vscode-light", codeTheme := "vs",
          testMode := false, autoFocus := false, maxTextSize := none,
          showWatermark := true, monacoTheme := none,
          editExecutionCount := none, editorMeasureClassName := none,
          font := { size := 14, family := "monospace" },
          settings :=
            { showCellInputCode := true, themeMatplotlibPlots := false,
              enableGather := false } }
        { role := none
          cellVM :=
            { cell :=
                { id := "a", file := none, state := CellState.init,
                  data :=
                    { cell_type := "code", source := "x = 1",
                      execution_count := none, outputsCount := 0 } }
              useQuickEdit := false, selected := false, focused := false,
              editable := true, directInput := true, hideOutput := false,
              inputBlockOpen := true, inputBlockShow := true,
              inputBlockCollapseNeeded := false, showLineNumbers := true }
          baseTheme := "vscode-light", codeTheme := "vs",
          testMode := false, autoFocus := false, maxTextSize := none,
          showWatermark := true, monacoTheme := none,
          editExecutionCount := none, editorMeasureClassName := none,
          font := { size := 14, family := "monospace" },
          settings :=
            { showCellInputCode := true, themeMatplotlibPlots := false,
              enableGather := false } } = false := by
  exact (interactiveCell_update_skip _ _ rfl).1

/-- C5: for every cell rendered with the normal toolbar, the go-to-source
control is visible iff the cell has a present, non-empty source file that
differs from the empty-file sentinel, and the copy-to-source control's
visibility is always the negation of the go-to-source control's. -/
theorem toolbar_goto_copy_visibility (settings : DataScienceSettings)
    (cell : ICell) :
    ((renderNormalToolbar settings cell).gotoVisible = true ↔
      ∃ f, cell.file = some f ∧ f ≠ "" ∧ f ≠ Identifiers.EmptyFileName) ∧
    (renderNormalToolbar settings cell).copyVisible =
      !(renderNormalToolbar settings cell).gotoVisible := by
  constructor
  · constructor
    · intro h
      cases hf : cell.file with
      | none => simp [renderNormalToolbar, hasNoSource, hf] at h
      | some f =>
        refine ⟨f, rfl, ?_, ?_⟩ <;>
        · intro hEq
          simp [renderNormalToolbar, hasNoSource, hf, hEq] at h
    · rintro ⟨f, hf, hne, hns⟩
      simp [renderNormalToolbar, hasNoSource, hf, hne, hns]
  · simp [renderNormalToolbar]

/-- Counterexample to C1 as stated: a submit-combination key event carrying
editor info whose contents are the empty string is received while editing,
yet the handler appends nothing to the input history, does not clear the
editor and dispatches no `submitInput` action — the truthiness guard
`if (e.editorInfo && e.editorInfo.contents)` rejects empty contents. -/
theorem editCellSubmit_empty_contents_no_dispatch :
    (IKeyboardEvent.code
        ⟨"Enter", true, false, false, false, some ⟨"", false, false⟩⟩ =
          "Enter" ∧
      IKeyboardEvent.shiftKey
        ⟨"Enter", true, false, false, false, some ⟨"", false, false⟩⟩ =
          true ∧
      (IKeyboardEvent.editorInfo
        ⟨"Enter", true, false, false, false, some ⟨"", false, false⟩⟩).isSome =
          true) ∧
    (onEditCellKeyDown ⟨some ⟨[]⟩⟩ Identifiers.EditCellId [] none
        ⟨"Enter", true, false, false, false, some ⟨"", false, false⟩⟩).2.1 =
      SubmitResult.noop ∧
    (onEditCellKeyDown ⟨some ⟨[]⟩⟩ Identifiers.EditCellId [] none
        ⟨"Enter", true, false, false, false, some ⟨"", false, false⟩⟩).1 =
      ⟨some ⟨[]⟩⟩ := by
  refine ⟨⟨rfl, rfl, rfl⟩, ?_, ?_⟩ <;> rfl

/-- C1 (amended): for every submit-combination key event received while
editing whose editor contents are non-empty, the handler strips trailing
newline characters from the contents, appends the trimmed content tagged
with the dirty flag to the input history exactly when the component owns
one, clears the editor and dispatches `submitInput` with the trimmed text
and the cell identity; in particular, contents `"a\nb\n\n\n"` trim to
`"a\nb"`. -/
theorem editCellSubmit_behaviour (comp : InteractiveCellComponent)
    (cellId : String) (doc : List FocusableElement)
    (active : Option FocusableElement) (e : IKeyboardEvent)
    (info : IEditorInfo) (hcode : e.code = "Enter")
    (hshift : e.shiftKey = true) (hinfo : e.editorInfo = some info)
    (hne : info.contents ≠ "") :
    (onEditCellKeyDown comp cellId doc active e).2.1.dispatched =
        some (removeTrailingNewlines info.contents, cellId) ∧
    (onEditCellKeyDown comp cellId doc active e).2.1.editorCleared = true ∧
    ((onEditCellKeyDown comp cellId doc active e).2.1.historyAdd =
        if comp.inputHistory.isSome then
          some (removeTrailingNewlines info.contents, info.isDirty)
        else none) ∧
    (∀ h, comp.inputHistory = some h →
        (onEditCellKeyDown comp cellId doc active e).1.inputHistory =
          some (h.add (removeTrailingNewlines info.contents) info.isDirty)) ∧
    removeTrailingNewlines "a\nb\n\n\n" = "a\nb" := by
  have hesc : e.code ≠ "Escape" := by rw [hcode]; decide
  cases hh : comp.inputHistory with
  | none =>
      refine ⟨?_, ?_, ?_, ?_, by decide⟩ <;>
        simp [onEditCellKeyDown, hesc, hcode, hshift, editCellSubmit, hinfo,
          hne, hh]
  | some h =>
      refine ⟨?_, ?_, ?_, ?_, by decide⟩ <;>
        simp [onEditCellKeyDown, hesc, hcode, hshift, editCellSubmit, hinfo,
          hne, hh]

/-- Witness for C1: submitting contents `"a\nb\n\n\n"` from the edit cell
with an input history dispatches `submitInput` with text `"a\nb"` and
appends the entry `("a\nb", true)` to the history. -/
theorem editCellSubmit_behaviour_witness :
    (onEditCellKeyDown ⟨some ⟨[]⟩⟩ Identifiers.EditCellId [] none
        ⟨"Enter", true, false, false, false,
          some ⟨"a\nb\n\n\n", true, false⟩⟩).2.1.dispatched =
      some (removeTrailingNewlines "a\nb\n\n\n", Identifiers.EditCellId) :=
  (editCellSubmit_behaviour ⟨some ⟨[]⟩⟩ Identifiers.EditCellId [] none
    ⟨"Enter", true, false, false, false, some ⟨"a\nb\n\n\n", true, false⟩⟩
    ⟨"a\nb\n\n\n", true, false⟩ rfl rfl rfl (by decide)).1

/-- Counterexample to C7 as stated: a submit-combination key event received
while editing with empty editor contents is neither stopped nor defaulted —
`stopPropagation` and `preventDefault` sit inside the truthiness guard on
the contents. -/
theorem editCellSubmit_empty_contents_not_stopped :
    (IKeyboardEvent.code
        ⟨"Enter", true, false, false, false, some ⟨"", true, false⟩⟩ =
          "Enter" ∧
      IKeyboardEvent.shiftKey
        ⟨"Enter", true, false, false, false, some ⟨"", true, false⟩⟩ =
          true ∧
      (IKeyboardEvent.editorInfo
        ⟨"Enter", true, false, false, false, some ⟨"", true, false⟩⟩).isSome =
          true) ∧
    (onEditCellKeyDown ⟨none⟩ "cell-1" [] none
        ⟨"Enter", true, false, false, false,
          some ⟨"", true, false⟩⟩).2.1.stoppedPropagation = false ∧
    (onEditCellKeyDown ⟨none⟩ "cell-1" [] none
        ⟨"Enter", true, false, false, false,
          some ⟨"", true, false⟩⟩).2.1.preventedDefault = false := by
  refine ⟨⟨rfl, rfl, rfl⟩, ?_, ?_⟩ <;> rfl

/-- C7 (amended): every submit-combination key event received while editing
whose editor contents are non-empty is stopped (no further propagation) and
its default platform action is prevented. -/
theorem editCellSubmit_stops_event (comp : InteractiveCellComponent)
    (cellId : String) (doc : List FocusableElement)
    (active : Option FocusableElement) (e : IKeyboardEvent)
    (info : IEditorInfo) (hcode : e.code = "Enter")
    (hshift : e.shiftKey = true) (hinfo : e.editorInfo = some info)
    (hne : info.contents ≠ "") :
    (onEditCellKeyDown comp cellId doc active e).2.1.stoppedPropagation =
        true ∧
    (onEditCellKeyDown comp cellId doc active e).2.1.preventedDefault =
        true := by
  have hesc : e.code ≠ "Escape" := by rw [hcode]; decide
  constructor <;>
    simp [onEditCellKeyDown, hesc, hcode, hshift, editCellSubmit, hinfo, hne]

/-- Witness for C7: a concrete non-empty submit event is stopped and
defaulted. -/
theorem editCellSubmit_stops_event_witness :
    (onEditCellKeyDown ⟨none⟩ "cell-1" [] none
        ⟨"Enter", true, false, false, false,
          some ⟨"print(1)", false, false⟩⟩).2.1.stoppedPropagation = true :=
  (editCellSubmit_stops_event ⟨none⟩ "cell-1" [] none
    ⟨"Enter", true, false, false, false, some ⟨"print(1)", false, false⟩⟩
    ⟨"print(1)", false, false⟩ rfl rfl rfl (by decide)).1

/-- A JavaScript `indexOf` result is either `-1` or a valid index. -/
theorem jsIndexOf_neg_one_or_lt (l : List FocusableElement)
    (x : FocusableElement) :
    jsIndexOf l x = -1 ∨
      ∃ m : Nat, jsIndexOf l x = (m : Int) ∧ m < l.length := by
  induction l with
  | nil => left; rfl
  | cons a rest ih =>
    by_cases hax : a = x
    · right
      exact ⟨0, by simp [jsIndexOf, hax], by simp⟩
    · rcases ih with h | ⟨m, hm, hlt⟩
      · left; simp [jsIndexOf, hax, h]
      · right
        have hne : jsIndexOf rest x ≠ -1 := by rw [hm]; omega
        refine ⟨m + 1, ?_, by simpa using Nat.succ_lt_succ hlt⟩
        simp [jsIndexOf, hax, hne, hm]

/-- Forward tab search: with the focused element at index `k` of the
tabable list, `findTabStop(1, _)` returns the element at `k + 1`, falling
back to the first element. -/
theorem findTabStop_forward (doc : List FocusableElement)
    (f : FocusableElement) (k : Nat)
    (hk : jsIndexOf (doc.filter fun i => 0 ≤ i.tabIndex) f = (k : Int)) :
    findTabStop 1 doc f =
      ((doc.filter fun i => 0 ≤ i.tabIndex)[k + 1]?).or
        ((doc.filter fun i => 0 ≤ i.tabIndex)[0]?) := by
  have h1 : (((k : Int) + 1)).toNat = k + 1 := by omega
  have h2 : (0 : Int) ≤ (k : Int) + 1 := by omega
  simp only [findTabStop, hk, jsIndex]
  norm_num [h1, h2]

/-- C8: on an escape key press while the inner editor is not mid-suggestion
and some element holds focus at index `k` of the non-negative-tab-index
elements in document order, focus moves to the element at index `k + 1`,
wrapping to index `0` when the focused element is the last; in every such
case some element receives focus. -/
theorem editCellEscape_moves_to_next (doc : List FocusableElement)
    (f : FocusableElement) (e : IKeyboardEvent) (info : IEditorInfo)
    (k : Nat) (hinfo : e.editorInfo = some info)
    (hsug : info.isSuggesting = false)
    (hk : jsIndexOf (doc.filter fun i => 0 ≤ i.tabIndex) f = (k : Int)) :
    (editCellEscape doc (some f) e =
        if k + 1 < (doc.filter fun i => 0 ≤ i.tabIndex).length then
          (doc.filter fun i => 0 ≤ i.tabIndex)[k + 1]?
        else (doc.filter fun i => 0 ≤ i.tabIndex)[0]?) ∧
    (editCellEscape doc (some f) e).isSome = true := by
  have hklt : k < (doc.filter fun i => 0 ≤ i.tabIndex).length := by
    rcases jsIndexOf_neg_one_or_lt (doc.filter fun i => 0 ≤ i.tabIndex) f
      with h | ⟨m, hm, hlt⟩
    · rw [hk] at h; omega
    · rw [hk] at hm
      have hkm : k = m := by exact_mod_cast hm
      omega
  have hmain : editCellEscape doc (some f) e =
      ((doc.filter fun i => 0 ≤ i.tabIndex)[k + 1]?).or
        ((doc.filter fun i => 0 ≤ i.tabIndex)[0]?) := by
    rw [← findTabStop_forward doc f k hk]
    simp [editCellEscape, hinfo, hsug]
  by_cases hlt : k + 1 < (doc.filter fun i => 0 ≤ i.tabIndex).length
  · have hsomeK : (doc.filter fun i => 0 ≤ i.tabIndex)[k + 1]? =
        some ((doc.filter fun i => 0 ≤ i.tabIndex))[k + 1] :=
      List.getElem?_eq_getElem hlt
    constructor
    · rw [hmain, if_pos hlt, hsomeK]; rfl
    · rw [hmain, hsomeK]; rfl
  · have hnone : (doc.filter fun i => 0 ≤ i.tabIndex)[k + 1]? = none := by
      apply List.getElem?_eq_none; omega
    have hsome0 : (doc.filter fun i => 0 ≤ i.tabIndex)[0]? =
        some ((doc.filter fun i => 0 ≤ i.tabIndex))[0] :=
      List.getElem?_eq_getElem (by omega)
    constructor
    · rw [hmain, if_neg hlt, hnone]; rfl
    · rw [hmain, hnone, hsome0]; rfl

/-- Witness for C8: a document with two tabable buttons and one negative
tab-index element; escaping from the last tabable element wraps focus to a
concrete element. -/
theorem editCellEscape_moves_to_next_witness :
    (editCellEscape
        [⟨"btn-a", 0⟩, ⟨"btn-b", 1⟩, ⟨"hidden", -1⟩]
        (some ⟨"btn-b", 1⟩)
        ⟨"Escape", false, false, false, false,
          some ⟨"x", false, false⟩⟩).isSome = true :=
  (editCellEscape_moves_to_next
    [⟨"btn-a", 0⟩, ⟨"btn-b", 1⟩, ⟨"hidden", -1⟩] ⟨"btn-b", 1⟩
    ⟨"Escape", false, false, false, false, some ⟨"x", false, false⟩⟩
    ⟨"x", false, false⟩ 1 rfl rfl (by decide)).2

/-- C9: an `InteractiveCell` instance owns an `InputHistory` exactly when
its cell identity is the reserved edit-cell sentinel — the constructor
creates exactly one for the sentinel identity and none otherwise — and the
only operation that touches the history, the edit-cell key handler,
preserves this ownership for the instance's whole lifetime. -/
theorem inputHistory_ownership (props : InteractiveCellProps)
    (comp : InteractiveCellComponent) (cellId : String)
    (doc : List FocusableElement) (active : Option FocusableElement)
    (e : IKeyboardEvent) :
    ((InteractiveCell.construct props).inputHistory.isSome = true ↔
        props.cellVM.cell.id = Identifiers.EditCellId) ∧
    (onEditCellKeyDown comp cellId doc active e).1.inputHistory.isSome =
      comp.inputHistory.isSome := by
  constructor
  · by_cases h : props.cellVM.cell.id = Identifiers.EditCellId <;>
      simp [InteractiveCell.construct, h]
  · by_cases h1 : e.code = "Escape"
    · simp [onEditCellKeyDown, h1]
    · by_cases h2 : e.code = "Enter" ∧ e.shiftKey = true
      · cases hinfo : e.editorInfo with
        | none => simp [onEditCellKeyDown, h1, h2, editCellSubmit, hinfo]
        | some info =>
          by_cases h3 : info.contents = ""
          · simp [onEditCellKeyDown, h1, h2, editCellSubmit, hinfo, h3]
          · cases hh : comp.inputHistory <;>
              simp [onEditCellKeyDown, h1, h2, editCellSubmit, hinfo, h3, hh]
      · simp [onEditCellKeyDown, h1, h2]

/-- Operating-system kind, from `OSType` in `client/common/utils/platform`
(referenced by the excerpt through `getOSType()`). -/
inductive OSType where
  | Unknown
  | Windows
  | OSX
  | Linux
deriving DecidableEq, Repr

/-- Modelled from the spec: the `NativeCommandType` identifiers the excerpt
sends with its telemetry "command" notifications
(`interactive-common/interactiveWindowTypes`, outside this excerpt). -/
inductive NativeCommandType where
  | AddToEnd
  | RunAll
  | ToggleVariableExplorer
  | Save
deriving DecidableEq, Repr

/-- Payload of a `NativeCommand` message: the command identifier and the
input modality (`'keyboard' | 'mouse'`). -/
structure NativeCommandPayload where
  command : NativeCommandType
  source : String
deriving DecidableEq, Repr

/-- A message forwarded over the message-passing channel by `sendMessage`. -/
inductive OutboundMessage where
  | nativeCommand (payload : NativeCommandPayload)
deriving DecidableEq, Repr

/-- The `sendCommand` helper (lines 476-478): forwards a
`NativeCommand` message with the command and source. -/
def sendCommand (command : NativeCommandType) (source : String) :
    OutboundMessage :=
  OutboundMessage.nativeCommand { command := command, source := source }

/-- A window-level DOM keyboard event as read by `mainKeyDown`. -/
structure WindowKeyEvent where
  key : String
  ctrlKey : Bool
  metaKey : Bool
  shiftKey : Bool
  altKey : Bool
deriving DecidableEq, Repr

/-- The observable effects of one `mainKeyDown` invocation: how many save
actions were dispatched and which messages were sent. -/
structure MainKeyDownEffects where
  saveCalls : Nat
  messages : List OutboundMessage
deriving DecidableEq, Repr

/-- The `mainKeyDown` window listener (lines 627-643): on key `'s'` with
ctrl held, or with the command (meta) key held on the Apple platform, it
saves and sends one telemetry command event; every other combination falls
through the switch doing nothing. -/
def mainKeyDown (os : OSType) (e : WindowKeyEvent) : MainKeyDownEffects :=
  if e.key = "s" then
    if e.ctrlKey = true ∨ (e.metaKey = true ∧ os = OSType.OSX) then
      { saveCalls := 1, messages := [sendCommand NativeCommandType.Save "keyboard"] }
    else { saveCalls := 0, messages := [] }
  else { saveCalls := 0, messages := [] }

/-- C4: a window-level keydown dispatches exactly one save action and one
telemetry command event (`NativeCommand` with `Save`, source `'keyboard'`)
iff the key is `'s'` with ctrl held or with the command modifier on the
Apple platform; every other event — including `'s'` with only the command
modifier on a non-Apple platform — dispatches neither. -/
theorem mainKeyDown_save_shortcut (os : OSType) (e : WindowKeyEvent) :
    (e.key = "s" ∧ (e.ctrlKey = true ∨ (e.metaKey = true ∧ os = OSType.OSX)) →
        mainKeyDown os e =
          { saveCalls := 1
            messages :=
              [OutboundMessage.nativeCommand
                { command := NativeCommandType.Save, source := "keyboard" }] }) ∧
    (¬(e.key = "s" ∧ (e.ctrlKey = true ∨ (e.metaKey = true ∧ os = OSType.OSX))) →
        mainKeyDown os e = { saveCalls := 0, messages := [] }) := by
  constructor
  · rintro ⟨hs, hmod⟩
    simp [mainKeyDown, hs, hmod, sendCommand]
  · intro hno
    by_cases hs : e.key = "s"
    · have hmod : ¬(e.ctrlKey = true ∨ (e.metaKey = true ∧ os = OSType.OSX)) :=
        fun hm => hno ⟨hs, hm⟩
      simp [mainKeyDown, hs, hmod]
    · simp [mainKeyDown, hs]

/-- Witness for C4: cmd+s on the Apple platform saves once with one
telemetry event; cmd+s on Windows dispatches neither. -/
theorem mainKeyDown_save_shortcut_witness :
    mainKeyDown OSType.OSX ⟨"s", false, true, false, false⟩ =
      { saveCalls := 1
        messages :=
          [OutboundMessage.nativeCommand
            { command := NativeCommandType.Save, source := "keyboard" }] } ∧
    mainKeyDown OSType.Windows ⟨"s", false, true, false, false⟩ =
      { saveCalls := 0, messages := [] } :=
  ⟨(mainKeyDown_save_shortcut OSType.OSX ⟨"s", false, true, false, false⟩).1
      (by exact ⟨rfl, Or.inr ⟨rfl, rfl⟩⟩),
   (mainKeyDown_save_shortcut OSType.Windows ⟨"s", false, true, false, false⟩).2
      (by decide)⟩

/-- Cursor position passed to focus operations, from `CursorPos` in
`interactive-common/mainState`. -/
inductive CursorPos where
  | current
  | top
  | bottom
deriving DecidableEq, Repr

/-- Modelled from the spec: the selection-state mutations the excerpt asks
of its store (`stateController.selectCell`) and the imperative focus call
on a cell's handle (`ref.current.giveFocus`), recorded as emitted actions. -/
inductive EditorAction where
  | selectCell (cellId : String) (focusedCellId : Option String)
  | giveFocus (cellId : String) (focusCode : Bool) (cursorPos : CursorPos)
deriving DecidableEq, Repr

/-- The `focusCell` helper (lines 722-728): update selection state, then —
if a live handle for the cell exists — give it focus. -/
def focusCell (cellRefsHas : String → Bool) (cellId : String)
    (focusCode : Bool) (cursorPos : CursorPos) : List EditorAction :=
  EditorAction.selectCell cellId (if focusCode then some cellId else none) ::
    (if cellRefsHas cellId then
        [EditorAction.giveFocus cellId focusCode cursorPos]
      else [])

/-- The `moveSelectionToExisting` helper (lines 450-456): guarded by
`if (this.contentPanelRef)`, which tests the ref object itself and is
always non-null, it updates selection state and focuses the cell. -/
def moveSelectionToExisting (cellRefsHas : String → Bool) (cellId : String)
    (focusCode : Bool) (cursorPos : CursorPos) : List EditorAction :=
  EditorAction.selectCell cellId (if focusCode then some cellId else none) ::
    focusCell cellRefsHas cellId focusCode cursorPos

/-- Result of one `selectCell` call: the actions issued synchronously, the
timeout delay in milliseconds, and the actions the deferred callback will
issue given the cell-handle map at firing time. -/
structure SelectCellResult where
  immediate : List EditorAction
  deferredDelayMs : Nat
  deferred : (String → Bool) → List EditorAction

/-- The `selectCell` method of `NativeEditor` (lines 458-470): if the
identity is found among the rendered non-message cells, selection state is
forced right now; in all cases a 1 ms timeout defers
`moveSelectionToExisting`. -/
def NativeEditor.selectCell (cellVMs : List ICellViewModel) (id : String)
    (focusCode : Bool) (cursorPos : CursorPos) : SelectCellResult :=
  let cells := (cellVMs.map fun c => c.cell).filter
    fun c => c.data.cell_type ≠ "messages"
  { immediate :=
      if (cells.find? fun c => c.id = id).isSome then
        [EditorAction.selectCell id (if focusCode then some id else none)]
      else []
    deferredDelayMs := 1
    deferred := fun laterRefs =>
      moveSelectionToExisting laterRefs id focusCode cursorPos }

/-- C6: selecting an identity absent from the rendered (non-message) cell
set issues no synchronous selection action, while the deferred callback —
which runs after the cell can have become present — always issues one;
selecting a present identity updates selection state immediately; focus is
only ever applied by the deferred callback, which fires after the fixed
minimal delay of 1 ms, and does so exactly when a live handle for the cell
exists then. -/
theorem selectCell_timing (cellVMs : List ICellViewModel) (id : String)
    (focusCode : Bool) (cursorPos : CursorPos) :
    ((((cellVMs.map fun c => c.cell).filter
          fun c => c.data.cell_type ≠ "messages").find?
            fun c => c.id = id) = none →
        (NativeEditor.selectCell cellVMs id focusCode cursorPos).immediate =
          []) ∧
    ((((cellVMs.map fun c => c.cell).filter
          fun c => c.data.cell_type ≠ "messages").find?
            fun c => c.id = id).isSome = true →
        (NativeEditor.selectCell cellVMs id focusCode cursorPos).immediate =
          [EditorAction.selectCell id
            (if focusCode then some id else none)]) ∧
    (NativeEditor.selectCell cellVMs id focusCode cursorPos).deferredDelayMs
        = 1 ∧
    (∀ laterRefs,
        EditorAction.selectCell id (if focusCode then some id else none) ∈
          (NativeEditor.selectCell cellVMs id focusCode cursorPos).deferred
            laterRefs) ∧
    (∀ act ∈
        (NativeEditor.selectCell cellVMs id focusCode cursorPos).immediate,
        ∀ cid fc cp, act ≠ EditorAction.giveFocus cid fc cp) ∧
    (∀ laterRefs,
        (EditorAction.giveFocus id focusCode cursorPos ∈
            (NativeEditor.selectCell cellVMs id focusCode cursorPos).deferred
              laterRefs) ↔
          laterRefs id = true) := by
  refine ⟨?_, ?_, rfl, ?_, ?_, ?_⟩
  · intro hnone
    simp only [NativeEditor.selectCell, hnone, Option.isSome_none,
      Bool.false_eq_true, if_false]
  · intro hsome
    simp only [NativeEditor.selectCell, hsome, if_true]
  · intro laterRefs
    simp only [NativeEditor.selectCell, moveSelectionToExisting]
    exact List.mem_cons_self _ _
  · intro act hmem cid fc cp
    simp only [NativeEditor.selectCell] at hmem
    split at hmem
    · have hact : act =
          EditorAction.selectCell id (if focusCode then some id else none) := by
        simpa using hmem
      subst hact
      simp
    · simp at hmem
  · intro laterRefs
    constructor
    · intro hmem
      by_cases href : laterRefs id = true
      · exact href
      · simp only [NativeEditor.selectCell, moveSelectionToExisting,
          focusCell, href, Bool.false_eq_true, if_false] at hmem
        simp at hmem
    · intro href
      simp [NativeEditor.selectCell, moveSelectionToExisting, focusCell,
        href]

/-- Witness for C6: with one rendered code cell `cell-1`, selecting the
absent identity `cell-2` issues nothing synchronously while its deferred
callback still selects it; selecting `cell-1` selects it synchronously. -/
theorem selectCell_timing_witness :
    (NativeEditor.selectCell
        [{ cell :=
             { id := "cell-1", file := none, state := CellState.init,
               data :=
                 { cell_type := "code", source := "", execution_count := none,
                   outputsCount := 0 } }
           useQuickEdit := false, selected := false, focused := false,
           editable := false, directInput := false, hideOutput := false,
           inputBlockOpen := false, inputBlockShow := false,
           inputBlockCollapseNeeded := false, showLineNumbers := false }]
        "cell-2" true CursorPos.current).immediate = [] ∧
    (NativeEditor.selectCell
        [{ cell :=
             { id := "cell-1", file := none, state := CellState.init,
               data :=
                 { cell_type := "code", source := "", execution_count := none,
                   outputsCount := 0 } }
           useQuickEdit := false, selected := false, focused := false,
           editable := false, directInput := false, hideOutput := false,
           inputBlockOpen := false, inputBlockShow := false,
           inputBlockCollapseNeeded := false, showLineNumbers := false }]
        "cell-1" true CursorPos.current).immediate =
      [EditorAction.selectCell "cell-1" (some "cell-1")] :=
  ⟨(selectCell_timing _ "cell-2" true CursorPos.current).1 (by decide),
   (selectCell_timing _ "cell-1" true CursorPos.current).2.1 (by decide)⟩

/-- Geometry of the scrollable content panel read by `updateVisibleCells`:
`offsetTop`, `scrollTop` and `clientHeight` of
`contentPanelScrollRef.current`. -/
structure ScrollMetrics where
  offsetTop : Int
  scrollTop : Int
  clientHeight : Int
deriving DecidableEq, Repr

/-- Geometry of one cell container div: `offsetTop` and `offsetHeight`. -/
structure ContainerBox where
  offsetTop : Int
  offsetHeight : Int
deriving DecidableEq, Repr

/-- The ref state of `NativeEditor` consulted by `updateVisibleCells`: the
scroll panel (absent when unmounted), the `cellRefs.has` test, and the
`cellContainerRefs` map — an entry whose box is `none` models a ref whose
`current` is null. -/
structure NativeEditorRefs where
  contentPanelScroll : Option ScrollMetrics
  cellRefsHas : String → Bool
  cellContainerRefs : List (String × Option ContainerBox)

/-- Lookup in the container-ref map followed by the `ref && ref.current`
test: a missing entry and a null `current` both yield nothing. -/
def lookupContainer (refs : List (String × Option ContainerBox))
    (id : String) : Option ContainerBox :=
  match refs.find? fun p => p.1 = id with
  | some p => p.2
  | none => none

/-- The loop of `updateVisibleCells` (lines 599-618) over the cell
view-models in document order.  A quick-edit cell with a live ref and
container is compared against the visible band: a container starting below
the band breaks the loop, one ending above it is skipped, and one
intersecting it is replaced by a copy with `useQuickEdit` cleared, setting
the change flag.  Cells without the quick-edit flag, a ref or a live
container are passed over.  Returns the final `cellVMs` array and the
`makeChange` flag. -/
def scanCells (visibleTop visibleBottom : Int) (hasRef : String → Bool)
    (getContainer : String → Option ContainerBox) :
    List ICellViewModel → List ICellViewModel × Bool
  | [] => ([], false)
  | vm :: rest =>
    if vm.useQuickEdit && hasRef vm.cell.id then
      match getContainer vm.cell.id with
      | some box =>
        if box.offsetTop > visibleBottom then (vm :: rest, false)
        else if box.offsetTop + box.offsetHeight < visibleTop then
          let r := scanCells visibleTop visibleBottom hasRef getContainer rest
          (vm :: r.1, r.2)
        else
          let r := scanCells visibleTop visibleBottom hasRef getContainer rest
          ({ vm with useQuickEdit := false } :: r.1, true)
      | none =>
        let r := scanCells visibleTop visibleBottom hasRef getContainer rest
        (vm :: r.1, r.2)
    else
      let r := scanCells visibleTop visibleBottom hasRef getContainer rest
      (vm :: r.1, r.2)

/-- The `updateVisibleCells` method (lines 593-625): guarded by a live
scroll ref and a non-empty container map, it computes the visible band,
runs the scan, and issues exactly one state update — carrying the whole
new `cellVMs` array — when the scan changed anything, none otherwise. -/
def updateVisibleCells (cellVMs : List ICellViewModel)
    (refs : NativeEditorRefs) : Option (List ICellViewModel) :=
  match refs.contentPanelScroll with
  | some sm =>
    if refs.cellContainerRefs.length ≠ 0 then
      let visibleTop := sm.offsetTop + sm.scrollTop
      let visibleBottom := visibleTop + sm.clientHeight
      let r := scanCells visibleTop visibleBottom refs.cellRefsHas
        (lookupContainer refs.cellContainerRefs) cellVMs
      if r.2 then some r.1 else none
    else none
  | none => none

/-- Whether a container box intersects the visible band, i.e. it neither
starts entirely below it nor ends entirely above it; a missing box never
intersects. -/
def intersectsBand (visibleTop visibleBottom : Int) :
    Option ContainerBox → Bool
  | some box =>
      !(decide (box.offsetTop > visibleBottom)) &&
        !(decide (box.offsetTop + box.offsetHeight < visibleTop))
  | none => false

/-- Whether the scan promotes this cell: quick-edit flag set, live ref, and
container intersecting the visible band. -/
def promotes (visibleTop visibleBottom : Int) (hasRef : String → Bool)
    (getContainer : String → Option ContainerBox) (vm : ICellViewModel) :
    Bool :=
  vm.useQuickEdit && hasRef vm.cell.id &&
    intersectsBand visibleTop visibleBottom (getContainer vm.cell.id)

/-- Whether the scan stops at this cell: quick-edit flag set, live ref, and
container starting entirely below the visible band. -/
def breaksScan (visibleBottom : Int) (hasRef : String → Bool)
    (getContainer : String → Option ContainerBox) (vm : ICellViewModel) :
    Bool :=
  vm.useQuickEdit && hasRef vm.cell.id &&
    (match getContainer vm.cell.id with
     | some box => decide (box.offsetTop > visibleBottom)
     | none => false)

/-- One-step unfolding of the scan at a breaking cell: everything is left
unchanged and no change is reported. -/
theorem scanCells_cons_break (visibleTop visibleBottom : Int)
    (hasRef : String → Bool) (getContainer : String → Option ContainerBox)
    (vm : ICellViewModel) (rest : List ICellViewModel)
    (hb : breaksScan visibleBottom hasRef getContainer vm = true) :
    scanCells visibleTop visibleBottom hasRef getContainer (vm :: rest) =
      (vm :: rest, false) := by
  simp only [breaksScan, Bool.and_eq_true] at hb
  obtain ⟨⟨hqe, href⟩, hmatch⟩ := hb
  cases hg : getContainer vm.cell.id with
  | none => rw [hg] at hmatch; simp at hmatch
  | some box =>
    rw [hg] at hmatch
    have htop : box.offsetTop > visibleBottom := by simpa using hmatch
    simp [scanCells, hqe, href, hg, htop]

/-- One-step unfolding of the scan at a promoted cell: the head is cleared,
the rest is scanned, and a change is reported. -/
theorem scanCells_cons_promote (visibleTop visibleBottom : Int)
    (hasRef : String → Bool) (getContainer : String → Option ContainerBox)
    (vm : ICellViewModel) (rest : List ICellViewModel)
    (hp : promotes visibleTop visibleBottom hasRef getContainer vm = true) :
    scanCells visibleTop visibleBottom hasRef getContainer (vm :: rest) =
      ({ vm with useQuickEdit := false } ::
          (scanCells visibleTop visibleBottom hasRef getContainer rest).1,
        true) := by
  simp only [promotes, Bool.and_eq_true] at hp
  obtain ⟨⟨hqe, href⟩, hint⟩ := hp
  cases hg : getContainer vm.cell.id with
  | none => rw [hg] at hint; simp [intersectsBand] at hint
  | some box =>
    rw [hg] at hint
    simp only [intersectsBand, Bool.and_eq_true] at hint
    obtain ⟨htop, hbot⟩ := hint
    have htop' : ¬box.offsetTop > visibleBottom := by simpa using htop
    have hbot' : ¬box.offsetTop + box.offsetHeight < visibleTop := by
      simpa using hbot
    simp [scanCells, hqe, href, hg, htop', hbot']

/-- One-step unfolding of the scan at a passed-over cell (neither breaking
nor promoted): the head is kept and the rest is scanned. -/
theorem scanCells_cons_pass (visibleTop visibleBottom : Int)
    (hasRef : String → Bool) (getContainer : String → Option ContainerBox)
    (vm : ICellViewModel) (rest : List ICellViewModel)
    (hb : breaksScan visibleBottom hasRef getContainer vm = false)
    (hp : promotes visibleTop visibleBottom hasRef getContainer vm = false) :
    scanCells visibleTop visibleBottom hasRef getContainer (vm :: rest) =
      (vm ::
          (scanCells visibleTop visibleBottom hasRef getContainer rest).1,
        (scanCells visibleTop visibleBottom hasRef getContainer rest).2) := by
  by_cases hqe : vm.useQuickEdit = true
  · by_cases href : hasRef vm.cell.id = true
    · cases hg : getContainer vm.cell.id with
      | none => simp [scanCells, hqe, href, hg]
      | some box =>
        have htop : ¬box.offsetTop > visibleBottom := by
          intro hcontra
          rw [breaksScan, hg] at hb
          simp [hqe, href, hcontra] at hb
        have hbot : box.offsetTop + box.offsetHeight < visibleTop := by
          by_contra hcontra
          rw [promotes, hg] at hp
          simp [hqe, href, intersectsBand, htop, hcontra] at hp
        simp [scanCells, hqe, href, hg, htop, hbot]
    · have href' : hasRef vm.cell.id = false := by
        cases h : hasRef vm.cell.id
        · rfl
        · exact absurd h href
      simp [scanCells, hqe, href']
  · have hqe' : vm.useQuickEdit = false := by
      cases h : vm.useQuickEdit
      · rfl
      · exact absurd h hqe
    simp [scanCells, hqe']

/-- A breaking cell is never a promoted cell: its container starts below
the band, so it does not intersect it. -/
theorem promotes_eq_false_of_breaks (visibleTop visibleBottom : Int)
    (hasRef : String → Bool) (getContainer : String → Option ContainerBox)
    (vm : ICellViewModel)
    (hb : breaksScan visibleBottom hasRef getContainer vm = true) :
    promotes visibleTop visibleBottom hasRef getContainer vm = false := by
  simp only [breaksScan, Bool.and_eq_true] at hb
  obtain ⟨⟨hqe, href⟩, hm⟩ := hb
  cases hg : getContainer vm.cell.id with
  | none => rw [hg] at hm; simp at hm
  | some box =>
    rw [hg] at hm
    have htop : box.offsetTop > visibleBottom := by simpa using hm
    simp [promotes, intersectsBand, hg, htop]

/-- Per-index characterization of the scan: as long as no cell before
index `i` breaks the scan, the cell at index `i` ends up promoted exactly
when its quick-edit flag is set, its ref is live and its container
intersects the visible band, and is otherwise untouched. -/
theorem scanCells_getElem (visibleTop visibleBottom : Int)
    (hasRef : String → Bool) (getContainer : String → Option ContainerBox)
    (l : List ICellViewModel) (i : Nat)
    (hnb : ∀ j, j < i → ∀ vmj, l[j]? = some vmj →
      breaksScan visibleBottom hasRef getContainer vmj = false) :
    (scanCells visibleTop visibleBottom hasRef getContainer l).1[i]? =
      (l[i]?).map fun vm =>
        if promotes visibleTop visibleBottom hasRef getContainer vm = true
        then { vm with useQuickEdit := false } else vm := by
  induction l generalizing i with
  | nil => simp [scanCells]
  | cons vm rest ih =>
    by_cases hb : breaksScan visibleBottom hasRef getContainer vm = true
    · cases i with
      | zero =>
        rw [scanCells_cons_break _ _ _ _ _ _ hb]
        simp [promotes_eq_false_of_breaks visibleTop _ _ _ _ hb]
      | succ j =>
        have hbf := hnb 0 (Nat.succ_pos j) vm (by simp)
        rw [hbf] at hb
        exact absurd hb (by simp)
    · by_cases hp :
          promotes visibleTop visibleBottom hasRef getContainer vm = true
      · rw [scanCells_cons_promote _ _ _ _ _ _ hp]
        cases i with
        | zero => simp [hp]
        | succ j =>
          simp only [List.getElem?_cons_succ]
          exact ih j fun j' hj' vmj hvm =>
            hnb (j' + 1) (Nat.succ_lt_succ hj') vmj (by simpa using hvm)
      · have hb' : breaksScan visibleBottom hasRef getContainer vm = false :=
          by simpa using hb
        have hp' :
            promotes visibleTop visibleBottom hasRef getContainer vm =
              false := by simpa using hp
        rw [scanCells_cons_pass _ _ _ _ _ _ hb' hp']
        cases i with
        | zero => simp [hp']
        | succ j =>
          simp only [List.getElem?_cons_succ]
          exact ih j fun j' hj' vmj hvm =>
            hnb (j' + 1) (Nat.succ_lt_succ hj') vmj (by simpa using hvm)

/-- The scan stops at the first breaking cell: every cell from the first
index whose container starts entirely below the band onwards is left
exactly as it was. -/
theorem scanCells_stops (visibleTop visibleBottom : Int)
    (hasRef : String → Bool) (getContainer : String → Option ContainerBox)
    (l : List ICellViewModel) (i : Nat)
    (hnb : ∀ j, j < i → ∀ vmj, l[j]? = some vmj →
      breaksScan visibleBottom hasRef getContainer vmj = false)
    (vmi : ICellViewModel) (hvmi : l[i]? = some vmi)
    (hbi : breaksScan visibleBottom hasRef getContainer vmi = true) :
    ∀ m, i ≤ m →
      (scanCells visibleTop visibleBottom hasRef getContainer l).1[m]? =
        l[m]? := by
  induction l generalizing i with
  | nil => simp at hvmi
  | cons vm rest ih =>
    cases i with
    | zero =>
      have hvm : vmi = vm := by simpa using hvmi.symm
      subst hvm
      rw [scanCells_cons_break _ _ _ _ _ _ hbi]
      intro m _
      rfl
    | succ j =>
      have hbhead := hnb 0 (Nat.succ_pos j) vm (by simp)
      by_cases hp :
          promotes visibleTop visibleBottom hasRef getContainer vm = true
      · rw [scanCells_cons_promote _ _ _ _ _ _ hp]
        intro m hm
        cases m with
        | zero => omega
        | succ m' =>
          simp only [List.getElem?_cons_succ]
          exact ih j
            (fun j' hj' vmj hvm =>
              hnb (j' + 1) (Nat.succ_lt_succ hj') vmj (by simpa using hvm))
            (by simpa using hvmi) m' (Nat.le_of_succ_le_succ hm)
      · rw [scanCells_cons_pass _ _ _ _ _ _ hbhead (by simpa using hp)]
        intro m hm
        cases m with
        | zero => omega
        | succ m' =>
          simp only [List.getElem?_cons_succ]
          exact ih j
            (fun j' hj' vmj hvm =>
              hnb (j' + 1) (Nat.succ_lt_succ hj') vmj (by simpa using hvm))
            (by simpa using hvmi) m' (Nat.le_of_succ_le_succ hm)

/-- When no cell of the list is promoted, the scan leaves the list intact
and reports no change. -/
theorem scanCells_no_promote (visibleTop visibleBottom : Int)
    (hasRef : String → Bool) (getContainer : String → Option ContainerBox)
    (l : List ICellViewModel)
    (hall : ∀ vm ∈ l,
      promotes visibleTop visibleBottom hasRef getContainer vm = false) :
    scanCells visibleTop visibleBottom hasRef getContainer l = (l, false) := by
  induction l with
  | nil => rfl
  | cons vm rest ih =>
    by_cases hb : breaksScan visibleBottom hasRef getContainer vm = true
    · exact scanCells_cons_break _ _ _ _ _ _ hb
    · rw [scanCells_cons_pass _ _ _ _ _ _ (by simpa using hb)
        (hall vm (List.mem_cons_self _ _))]
      rw [ih fun vm' hm => hall vm' (List.mem_cons_of_mem _ hm)]

/-- The element-wise frame relation preserved by the scan: each output cell
is its input cell, or its input cell with a set quick-edit flag cleared. -/
def vmFrameRel (vm vm' : ICellViewModel) : Prop :=
  vm' = vm ∨
    (vm.useQuickEdit = true ∧ vm' = { vm with useQuickEdit := false })

/-- The frame relation is reflexive, list-wise. -/
theorem vmFrameRel_refl (l : List ICellViewModel) :
    List.Forall₂ vmFrameRel l l := by
  induction l with
  | nil => exact List.Forall₂.nil
  | cons a l ih => exact List.Forall₂.cons (Or.inl rfl) ih

/-- The scan relates its input to its output by the frame relation. -/
theorem scanCells_frame (visibleTop visibleBottom : Int)
    (hasRef : String → Bool) (getContainer : String → Option ContainerBox)
    (l : List ICellViewModel) :
    List.Forall₂ vmFrameRel l
      (scanCells visibleTop visibleBottom hasRef getContainer l).1 := by
  induction l with
  | nil => exact List.Forall₂.nil
  | cons vm rest ih =>
    by_cases hb : breaksScan visibleBottom hasRef getContainer vm = true
    · rw [scanCells_cons_break _ _ _ _ _ _ hb]
      exact vmFrameRel_refl _
    · by_cases hp :
          promotes visibleTop visibleBottom hasRef getContainer vm = true
      · rw [scanCells_cons_promote _ _ _ _ _ _ hp]
        refine List.Forall₂.cons (Or.inr ⟨?_, rfl⟩) ih
        simp only [promotes, Bool.and_eq_true] at hp
        exact hp.1.1
      · rw [scanCells_cons_pass _ _ _ _ _ _ (by simpa using hb)
          (by simpa using hp)]
        exact List.Forall₂.cons (Or.inl rfl) ih

/-- Fixture: a quick-edit code cell view-model with the given identity. -/
def quickEditVM (i : String) : ICellViewModel :=
  { cell :=
      { id := i, file := none, state := CellState.init,
        data :=
          { cell_type := "code", source := "", execution_count := none,
            outputsCount := 0 } }
    useQuickEdit := true, selected := false, focused := false,
    editable := false, directInput := false, hideOutput := false,
    inputBlockOpen := false, inputBlockShow := false,
    inputBlockCollapseNeeded := false, showLineNumbers := false }

/-- Fixture: ref state with a visible band of 100..200, live cell refs,
and containers placing `c1` entirely above the band (0..50) and `c2`
inside it (150..180). -/
def exampleScanRefs : NativeEditorRefs :=
  { contentPanelScroll :=
      some { offsetTop := 0, scrollTop := 100, clientHeight := 100 }
    cellRefsHas := fun _ => true
    cellContainerRefs :=
      [("c1", some { offsetTop := 0, offsetHeight := 50 }),
       ("c2", some { offsetTop := 150, offsetHeight := 30 })] }

/-- C2: in a scroll-debounce visibility scan, as long as no earlier
container started entirely below the visible band, the cell at any index is
promoted (quick-edit flag cleared) exactly when it is a quick-edit cell
with a live ref whose container intersects the band; from the first cell
whose container starts entirely below the band onwards everything is left
unchanged; and on the two-cell fixture — `c1` quick-edit offscreen above
the band, `c2` quick-edit onscreen — one cycle issues one state update that
clears `c2`'s flag and leaves `c1`'s set. -/
theorem updateVisibleCells_scan (visibleTop visibleBottom : Int)
    (hasRef : String → Bool) (getContainer : String → Option ContainerBox)
    (l : List ICellViewModel) (i : Nat)
    (hnb : ∀ j, j < i → ∀ vmj, l[j]? = some vmj →
      breaksScan visibleBottom hasRef getContainer vmj = false) :
    ((scanCells visibleTop visibleBottom hasRef getContainer l).1[i]? =
      (l[i]?).map fun vm =>
        if promotes visibleTop visibleBottom hasRef getContainer vm = true
        then { vm with useQuickEdit := false } else vm) ∧
    (∀ vmi, l[i]? = some vmi →
      breaksScan visibleBottom hasRef getContainer vmi = true →
      ∀ m, i ≤ m →
        (scanCells visibleTop visibleBottom hasRef getContainer l).1[m]? =
          l[m]?) ∧
    updateVisibleCells [quickEditVM "c1", quickEditVM "c2"] exampleScanRefs =
      some [quickEditVM "c1",
        { quickEditVM "c2" with useQuickEdit := false }] := by
  refine ⟨scanCells_getElem _ _ _ _ _ _ hnb, ?_, by decide⟩
  intro vmi hvmi hbi m hm
  exact scanCells_stops _ _ _ _ _ _ hnb vmi hvmi hbi m hm

/-- Witness for C2: the per-index characterization applied at index 1 of
the two-cell fixture — `c2` intersects the band and is promoted. -/
theorem updateVisibleCells_scan_witness :
    (scanCells 100 200 (fun _ => true)
        (lookupContainer
          [("c1", some { offsetTop := 0, offsetHeight := 50 }),
           ("c2", some { offsetTop := 150, offsetHeight := 30 })])
        [quickEditVM "c1", quickEditVM "c2"]).1[1]? =
      (([quickEditVM "c1", quickEditVM "c2"][1]?).map fun vm =>
        if promotes 100 200 (fun _ => true)
            (lookupContainer
              [("c1", some { offsetTop := 0, offsetHeight := 50 }),
               ("c2", some { offsetTop := 150, offsetHeight := 30 })])
            vm = true
        then { vm with useQuickEdit := false } else vm) :=
  (updateVisibleCells_scan 100 200 (fun _ => true)
    (lookupContainer
      [("c1", some { offsetTop := 0, offsetHeight := 50 }),
       ("c2", some { offsetTop := 150, offsetHeight := 30 })])
    [quickEditVM "c1", quickEditVM "c2"] 1
    (by
      intro j hj vmj hvm
      have hj0 : j = 0 := by omega
      subst hj0
      simp only [List.getElem?_cons_zero, Option.some.injEq] at hvm
      subst hvm
      decide)).1

/-- C10: every state update issued by the visibility scan preserves the
length and order of the cell list and, cell by cell, every field except
that a set quick-edit flag may be cleared; and when no container of any
cell intersects the visible band, no state update is issued at all. -/
theorem updateVisibleCells_frame (cellVMs : List ICellViewModel)
    (refs : NativeEditorRefs) :
    (∀ l', updateVisibleCells cellVMs refs = some l' →
      l'.length = cellVMs.length ∧
      List.Forall₂ (fun vm vm' =>
        vm'.cell = vm.cell ∧ vm'.selected = vm.selected ∧
        vm'.focused = vm.focused ∧ vm'.editable = vm.editable ∧
        vm'.directInput = vm.directInput ∧
        vm'.hideOutput = vm.hideOutput ∧
        vm'.inputBlockOpen = vm.inputBlockOpen ∧
        vm'.inputBlockShow = vm.inputBlockShow ∧
        vm'.inputBlockCollapseNeeded = vm.inputBlockCollapseNeeded ∧
        vm'.showLineNumbers = vm.showLineNumbers ∧
        (vm'.useQuickEdit = vm.useQuickEdit ∨
          (vm.useQuickEdit = true ∧ vm'.useQuickEdit = false)))
        cellVMs l') ∧
    (∀ sm, refs.contentPanelScroll = some sm →
      (∀ vm ∈ cellVMs,
        intersectsBand (sm.offsetTop + sm.scrollTop)
          (sm.offsetTop + sm.scrollTop + sm.clientHeight)
          (lookupContainer refs.cellContainerRefs vm.cell.id) = false) →
      updateVisibleCells cellVMs refs = none) := by
  constructor
  · intro l' hl'
    cases hscroll : refs.contentPanelScroll with
    | none =>
      rw [updateVisibleCells, hscroll] at hl'
      exact Option.noConfusion hl'
    | some sm =>
      simp only [updateVisibleCells, hscroll] at hl'
      by_cases hlen : refs.cellContainerRefs.length ≠ 0
      · rw [if_pos hlen] at hl'
        by_cases hch : (scanCells (sm.offsetTop + sm.scrollTop)
            (sm.offsetTop + sm.scrollTop + sm.clientHeight) refs.cellRefsHas
            (lookupContainer refs.cellContainerRefs) cellVMs).2 = true
        · rw [if_pos hch] at hl'
          have hinj := Option.some.inj hl'
          subst hinj
          have hframe := scanCells_frame (sm.offsetTop + sm.scrollTop)
            (sm.offsetTop + sm.scrollTop + sm.clientHeight) refs.cellRefsHas
            (lookupContainer refs.cellContainerRefs) cellVMs
          refine ⟨hframe.length_eq.symm, ?_⟩
          refine hframe.imp ?_
          intro vm vm' hrel
          rcases hrel with rfl | ⟨hq, rfl⟩
          · simp
          · simp [hq]
        · rw [if_neg hch] at hl'; cases hl'
      · rw [if_neg hlen] at hl'; cases hl'
  · intro sm hscroll hno
    simp only [updateVisibleCells, hscroll]
    by_cases hlen : refs.cellContainerRefs.length ≠ 0
    · rw [if_pos hlen]
      have hall : ∀ vm ∈ cellVMs,
          promotes (sm.offsetTop + sm.scrollTop)
            (sm.offsetTop + sm.scrollTop + sm.clientHeight) refs.cellRefsHas
            (lookupContainer refs.cellContainerRefs) vm = false := by
        intro vm hm
        simp [promotes, hno vm hm]
      rw [scanCells_no_promote _ _ _ _ _ hall]
      simp
    · rw [if_neg hlen]

/-- Witness for C10: the state update of the two-cell fixture keeps the
list length. -/
theorem updateVisibleCells_frame_witness :
    ([quickEditVM "c1",
        { quickEditVM "c2" with useQuickEdit := false }]).length =
      ([quickEditVM "c1", quickEditVM "c2"] : List ICellViewModel).length :=
  ((updateVisibleCells_frame [quickEditVM "c1", quickEditVM "c2"]
      exampleScanRefs).1
    [quickEditVM "c1", { quickEditVM "c2" with useQuickEdit := false }]
    (by decide)).1

end VSCodePython
